import Mathlib

/-!
Verification of the data-ingestion pipeline of the campus energy dashboard
(`load_and_combine_data` in `main.py`).

The pipeline is shallowly embedded: a directory is a list of files in OS
listing order, a file is a base name plus optional raw text content (`none`
models an unreadable file).  The pandas operations used by the source
(`pd.read_csv` with `utf-8-sig`, column `str.strip().str.lower()`,
`df["building"] = ...` assignment, `pd.concat(..., ignore_index=True)` with
column-union alignment, `pd.to_datetime(..., dayfirst=False)` with its default
raise-on-error policy) are modelled by executable Lean functions below.
Textual timestamps are modelled in the month-first `M/D/Y` numeric form, the
format exercised by the specification; pandas accepts further formats, which
are irrelevant to the claims checked here.  All string machinery is defined
from scratch over `List Char` so that every definition evaluates inside the
kernel.
-/

namespace Campus

/-- Whitespace characters trimmed by the `str.strip()` column canonicalizer. -/
def isSpaceChar (c : Char) : Bool :=
  c == ' ' || c == '\t' || c == '\n' || c == '\r'

/-- ASCII lowercasing of one character, as `str.lower()` does on ASCII labels. -/
def lowerChar (c : Char) : Char :=
  if 65 ≤ c.toNat && c.toNat ≤ 90 then Char.ofNat (c.toNat + 32) else c

/-- Trim whitespace from both ends of a character list. -/
def trimChars (l : List Char) : List Char :=
  ((l.dropWhile isSpaceChar).reverse.dropWhile isSpaceChar).reverse

/-- Python `str.strip()` on a string. -/
def pyStrip (s : String) : String := ⟨trimChars s.data⟩

/-- Python `str.lower()` on a string. -/
def pyLower (s : String) : String := ⟨s.data.map lowerChar⟩

/-- Split a character list on a separator, Python `str.split(sep)` semantics:
the empty list yields `[[]]`, separators at the ends yield empty fields. -/
def splitOnChar (sep : Char) : List Char → List (List Char)
  | [] => [[]]
  | c :: cs =>
    match splitOnChar sep cs with
    | [] => [[c]]
    | h :: t => if c == sep then [] :: h :: t else (c :: h) :: t

/-- Python `s.split(sep)` on strings. -/
def pySplit (sep : Char) (s : String) : List String :=
  (splitOnChar sep s.data).map fun l => (⟨l⟩ : String)

/-- Numeric value of a decimal digit character. -/
def digitVal (c : Char) : Option Nat :=
  if c.isDigit then some (c.toNat - 48) else none

/-- Accumulating decimal parser over characters. -/
def parseNatAux : List Char → Nat → Option Nat
  | [], acc => some acc
  | c :: cs, acc =>
    match digitVal c with
    | some d => parseNatAux cs (acc * 10 + d)
    | none => none

/-- Parse a non-empty all-digit string as a natural number. -/
def pyToNat (s : String) : Option Nat :=
  match s.data with
  | [] => none
  | l => parseNatAux l 0

/-- A cell value of a dataframe: a raw string, a missing value (NaN/NaT), or a
parsed point-in-time value. -/
inductive Value where
  | vstr (s : String)
  | vnan
  | vtime (t : Nat)
deriving DecidableEq

/-- An in-memory table: ordered column labels plus rows of cell values. -/
structure DataFrame where
  cols : List String
  rows : List (List Value)
deriving DecidableEq

/-- Per-file exceptions raised inside the loop body of `load_and_combine_data`
and caught by its `except Exception` handler. -/
inductive FileError where
  | unreadable
  | emptyData
  | malformed
  | badBuildingName
deriving DecidableEq

/-- Errors raised after the per-file loop, outside any handler: `pd.concat` of
an empty list, `KeyError` on a missing `timestamp` column, and
`pd.to_datetime` failing on an unparseable value. -/
inductive RunError where
  | concatEmpty
  | missingTimestampKey
  | unparseableTimestamp
deriving DecidableEq

/-- A file of the input directory: base name and raw content (`none` models an
I/O failure on read). -/
structure PyFile where
  name : String
  content : Option String
deriving DecidableEq

/-- Remove a leading byte-order mark, as the `utf-8-sig` codec does. -/
def stripBom (l : List Char) : List Char :=
  match l with
  | [] => []
  | c :: rest => if c == '\uFEFF' then rest else c :: rest

/-- The non-blank lines of a file's content, BOM removed (pandas skips blank
lines by default). -/
def csvLines (content : String) : List String :=
  ((splitOnChar '\n' (stripBom content.data)).map fun l => (⟨l⟩ : String)).filter
    fun s => s ≠ ""

/-- One delimited cell: empty text reads as a missing value. -/
def parseCell (s : String) : Value :=
  if s = "" then Value.vnan else Value.vstr s

/-- One data line against a known column count: more fields than columns is a
tokenizing error; fewer fields are padded with missing values. -/
def parseRowCells (ncols : Nat) (line : String) : Except FileError (List Value) :=
  if ncols < (pySplit ',' line).length then Except.error FileError.malformed
  else Except.ok ((pySplit ',' line).map parseCell ++
    List.replicate (ncols - (pySplit ',' line).length) Value.vnan)

/-- All data lines of a file, first tokenizing error wins. -/
def parseDataRows (ncols : Nat) : List String → Except FileError (List (List Value))
  | [] => Except.ok []
  | l :: ls =>
    match parseRowCells ncols l, parseDataRows ncols ls with
    | Except.ok r, Except.ok rs => Except.ok (r :: rs)
    | Except.error e, _ => Except.error e
    | _, Except.error e => Except.error e

/-- Models `pd.read_csv(file, encoding="utf-8-sig")`: BOM-stripped, header from the
first non-blank line, data rows below it; a file with no lines at all raises
`EmptyDataError`. -/
def read_csv (content : String) : Except FileError DataFrame :=
  match csvLines content with
  | [] => Except.error FileError.emptyData
  | hdr :: rest =>
    match parseDataRows (pySplit ',' hdr).length rest with
    | Except.error e => Except.error e
    | Except.ok rows => Except.ok ⟨pySplit ',' hdr, rows⟩

/-- Column-label canonicalization of the source: `strip()` then `lower()`. -/
def canonLabel (s : String) : String := pyLower (pyStrip s)

/-- Line 20 of the source, `df.columns = df.columns.str.strip().str.lower()`. -/
def normalizeCols (df : DataFrame) : DataFrame :=
  ⟨df.cols.map canonLabel, df.rows⟩

/-- Join name parts back with dots (helper for `Path.stem`). -/
def joinDots : List String → List Char
  | [] => []
  | [s] => s.data
  | s :: rest => s.data ++ '.' :: joinDots rest

/-- Python `Path(...).stem`: the base name without its final extension. -/
def stem (name : String) : String :=
  let parts := pySplit '.' name
  if parts.length ≤ 1 then name else ⟨joinDots parts.dropLast⟩

/-- Line 23 of the source, `file.stem.split("_")[1]`: `none` models the `IndexError` when the base
name has fewer than two underscore-delimited tokens. -/
def buildingOf (name : String) : Option String :=
  (pySplit '_' (stem name))[1]?

/-- Index of the first column with a given label. -/
def colIdx (cols : List String) (c : String) : Option Nat :=
  match cols with
  | [] => none
  | c0 :: rest => if c0 = c then some 0 else (colIdx rest c).map (· + 1)

/-- The value of a row at a labelled column (missing column or short row reads
as a missing value, as pandas alignment produces). -/
def rowVal (cols : List String) (r : List Value) (c : String) : Value :=
  match colIdx cols c with
  | some i => r.getD i Value.vnan
  | none => Value.vnan

/-- Models `df[name] = v` with a scalar: overwrite the column if present, else append
it on the right. -/
def setCol (df : DataFrame) (name : String) (v : Value) : DataFrame :=
  match colIdx df.cols name with
  | some i => ⟨df.cols, df.rows.map fun r => r.set i v⟩
  | none => ⟨df.cols ++ [name], df.rows.map fun r => r ++ [v]⟩

/-- Lines 17–20 of the source: read the file and canonicalize its column
labels. -/
def readNorm (f : PyFile) : Except FileError DataFrame :=
  match f.content with
  | none => Except.error FileError.unreadable
  | some c =>
    match read_csv c with
    | Except.error e => Except.error e
    | Except.ok df => Except.ok (normalizeCols df)

/-- The whole `try` body for one file: read, normalize, derive the building
identifier from the file name and attach it as a column. -/
def processFile (f : PyFile) : Except FileError DataFrame :=
  match readNorm f with
  | Except.error e => Except.error e
  | Except.ok df =>
    match buildingOf f.name with
    | none => Except.error FileError.badBuildingName
    | some b => Except.ok (setCol df "building" (Value.vstr b))

/-- The `for file in all_files` loop: successful frames are appended to
`df_list`, exceptions are caught and printed (modelled as an accumulated
name/error log). -/
def loopPhase : List PyFile → List DataFrame × List (String × FileError)
  | [] => ([], [])
  | f :: fs =>
    let p := loopPhase fs
    match processFile f with
    | Except.ok df => (df :: p.1, p.2)
    | Except.error e => (p.1, (f.name, e) :: p.2)

/-- Suffix test on character lists. -/
def suffixEq (l suf : List Char) : Bool :=
  suf.length ≤ l.length && l.drop (l.length - suf.length) == suf

/-- Models `folder.glob("*.csv")` membership: name ends in `.csv` and, per glob
hidden-file rules, does not start with a dot. -/
def matchesGlob (name : String) : Bool :=
  suffixEq name.data ".csv".data &&
    !(match name.data with | c :: _ => c == '.' | [] => false)

/-- File discovery: the matching files of the directory, in listing order. -/
def discover (dir : List PyFile) : List PyFile :=
  dir.filter fun f => matchesGlob f.name

/-- Extend an ordered column union with the not-yet-seen labels of one frame. -/
def addNewCols (acc : List String) (cs : List String) : List String :=
  acc ++ cs.filter fun c => !(acc.contains c)

/-- Ordered union of the column labels of a list of frames, first-seen order,
starting from an accumulator. -/
def unionColsFrom (acc : List String) : List DataFrame → List String
  | [] => acc
  | df :: dfs => unionColsFrom (addNewCols acc df.cols) dfs

/-- Ordered union of the column labels of a list of frames. -/
def unionCols (dfs : List DataFrame) : List String := unionColsFrom [] dfs

/-- Reindex one row from its own columns to the union columns, filling missing
columns with NaN. -/
def alignRow (cols ucols : List String) (r : List Value) : List Value :=
  ucols.map (rowVal cols r)

/-- Models `pd.concat(df_list, ignore_index=True)`: raises `ValueError` on an empty
list, otherwise aligns every frame to the ordered column union and stacks the
rows in list order. -/
def pd_concat (dfs : List DataFrame) : Except RunError DataFrame :=
  match dfs with
  | [] => Except.error RunError.concatEmpty
  | _ :: _ =>
    Except.ok ⟨unionCols dfs,
      (dfs.map fun df => df.rows.map (alignRow df.cols (unionCols dfs))).flatten⟩

/-- Month-first (`dayfirst=False`) parse of an `M/D/Y` textual timestamp,
encoded as `y*10000 + m*100 + d`; out-of-range month or day fails. -/
def parseTimestamp (s : String) : Option Nat :=
  match pySplit '/' s with
  | [ms, ds, ys] =>
    match pyToNat ms, pyToNat ds, pyToNat ys with
    | some m, some d, some y =>
      if 1 ≤ m ∧ m ≤ 12 ∧ 1 ≤ d ∧ d ≤ 31 then some (y * 10000 + m * 100 + d)
      else none
    | _, _, _ => none
  | _ => none

/-- Models `pd.to_datetime` on one cell with the default raise policy: NaN stays NaT,
a string must parse, anything unparseable raises. -/
def coerceVal : Value → Except RunError Value
  | Value.vnan => Except.ok Value.vnan
  | Value.vtime t => Except.ok (Value.vtime t)
  | Value.vstr s =>
    match parseTimestamp s with
    | some t => Except.ok (Value.vtime t)
    | none => Except.error RunError.unparseableTimestamp

/-- Coerce the `i`-th cell of every row, first failure aborting. -/
def coerceRows (i : Nat) : List (List Value) → Except RunError (List (List Value))
  | [] => Except.ok []
  | r :: rs =>
    match coerceVal (r.getD i Value.vnan), coerceRows i rs with
    | Except.ok v, Except.ok rest => Except.ok (r.set i v :: rest)
    | Except.error e, _ => Except.error e
    | _, Except.error e => Except.error e

/-- Line 33 of the source, `df["timestamp"] = pd.to_datetime(df["timestamp"], dayfirst=False)`: the
column lookup raises `KeyError` when absent, then every cell is coerced. -/
def to_datetime (df : DataFrame) : Except RunError DataFrame :=
  match colIdx df.cols "timestamp" with
  | none => Except.error RunError.missingTimestampKey
  | some i =>
    match coerceRows i df.rows with
    | Except.error e => Except.error e
    | Except.ok rows => Except.ok ⟨df.cols, rows⟩

/-- The whole pipeline `load_and_combine_data`: discovery, the per-file loop, `pd.concat`, then
the timestamp conversion.  The second component is the log of caught per-file
errors (the printed messages); the first is the combined frame, or the
uncaught error of the post-loop phase. -/
def load_and_combine_data (dir : List PyFile) :
    Except RunError DataFrame × List (String × FileError) :=
  match pd_concat (loopPhase (discover dir)).1 with
  | Except.error e => (Except.error e, (loopPhase (discover dir)).2)
  | Except.ok df =>
    match to_datetime df with
    | Except.error e => (Except.error e, (loopPhase (discover dir)).2)
    | Except.ok df2 => (Except.ok df2, (loopPhase (discover dir)).2)

/-- The successful outcome of one file, if any. -/
def okPart (f : PyFile) : Option DataFrame :=
  match processFile f with
  | Except.ok df => some df
  | Except.error _ => none

/-- The logged failure of one file, if any. -/
def errPart (f : PyFile) : Option (String × FileError) :=
  match processFile f with
  | Except.ok _ => none
  | Except.error e => some (f.name, e)

/-! Helper lemmas shared by the claim theorems. -/

/-- The loop collects exactly the successful frames and exactly the caught
failures, in file order. -/
theorem loopPhase_eq (files : List PyFile) :
    loopPhase files = (files.filterMap okPart, files.filterMap errPart) := by
  induction files with
  | nil => rfl
  | cons f fs ih =>
    cases h : processFile f with
    | ok df =>
      simp [loopPhase, ih, List.filterMap_cons, okPart, errPart, h]
    | error e =>
      simp [loopPhase, ih, List.filterMap_cons, okPart, errPart, h]

/-- The error log of the returned pair is the loop's log, whatever happens in
the post-loop phase. -/
theorem load_snd (dir : List PyFile) :
    (load_and_combine_data dir).2 = (loopPhase (discover dir)).2 := by
  unfold load_and_combine_data
  cases h : pd_concat (loopPhase (discover dir)).1 with
  | error e => simp [h]
  | ok df =>
    cases h2 : to_datetime df with
    | error e => simp [h, h2]
    | ok df2 => simp [h, h2]

/-! Claim theorems. -/

/-- C1 (amended): the per-file errors that the loop catches — unreadable file,
malformed delimited text, unparseable building name — never abort the run:
each is logged against its file, the offending file contributes no frame, and
every other file is still processed (the log and the frame list are exactly
the file-wise outcomes in order).  A missing timestamp column, however, is not
a per-file error in this code: it is neither caught nor recorded in the loop,
and such a file's rows are not excluded. -/
theorem c1_per_file_error_policy (dir : List PyFile) :
    (load_and_combine_data dir).2 = (discover dir).filterMap errPart ∧
    (loopPhase (discover dir)).1 = (discover dir).filterMap okPart := by
  refine ⟨?_, ?_⟩
  · rw [load_snd, loopPhase_eq]
  · rw [loopPhase_eq]

/-- C1 counterexample: a file without any `timestamp` column (`a_X.csv`) is
processed without any recorded error and its row appears in the combined
output (with a null timestamp), contradicting the claim that a
missing-timestamp per-file error is recorded and the file's rows excluded. -/
theorem c1_counterexample :
    load_and_combine_data
        [⟨"a_X.csv", some "ts,kwh\n1/2/2024,5"⟩,
         ⟨"b_Y.csv", some "timestamp,kwh\n1/3/2024,3"⟩] =
      (Except.ok ⟨["ts", "kwh", "building", "timestamp"],
        [[Value.vstr "1/2/2024", Value.vstr "5", Value.vstr "X", Value.vnan],
         [Value.vnan, Value.vstr "3", Value.vstr "Y", Value.vtime 20240103]]⟩,
       []) := rfl

/-- C2 (amended): when no file yields a successful frame — zero discovered
files, or every file failing — `pd.concat` of the empty list raises, so the
pipeline itself errors out instead of returning an empty dataset; the caught
per-file failures exist only in the printed log. -/
theorem c2_no_success_raises (dir : List PyFile)
    (h : (loopPhase (discover dir)).1 = []) :
    load_and_combine_data dir =
      (Except.error RunError.concatEmpty, (discover dir).filterMap errPart) := by
  have h2 : pd_concat (loopPhase (discover dir)).1 = Except.error RunError.concatEmpty := by
    rw [h]; rfl
  unfold load_and_combine_data
  simp only [h2]
  rw [loopPhase_eq]

/-- C2 witness: the amended statement applied to a one-file directory whose
only file is unreadable. -/
theorem c2_no_success_raises_witness :
    load_and_combine_data [⟨"x_B.csv", none⟩] =
      (Except.error RunError.concatEmpty,
       (discover [⟨"x_B.csv", none⟩]).filterMap errPart) :=
  c2_no_success_raises [⟨"x_B.csv", none⟩] rfl

/-- C2 counterexample: on an empty directory, and on a directory whose only
file fails, the pipeline returns the `pd.concat` `ValueError` — not an empty
`UnifiedDataset` — refuting the no-crash claim in both the zero-file and the
all-fail case. -/
theorem c2_counterexample :
    load_and_combine_data [] = (Except.error RunError.concatEmpty, []) ∧
    load_and_combine_data [⟨"all_fail.csv", none⟩] =
      (Except.error RunError.concatEmpty, [("all_fail.csv", FileError.unreadable)]) :=
  ⟨rfl, rfl⟩

/-! List and column-index utilities. -/

theorem getD_cons_succ {α} (x : α) (xs : List α) (n : Nat) (d : α) :
    (x :: xs).getD (n + 1) d = xs.getD n d := rfl

theorem getD_set_self {α} (l : List α) (i : Nat) (a d : α) (h : i < l.length) :
    (l.set i a).getD i d = a := by
  induction l generalizing i with
  | nil => cases h
  | cons x xs ih =>
    cases i with
    | zero => rfl
    | succ n => exact ih n (Nat.lt_of_succ_lt_succ h)

theorem getD_set_ne {α} (l : List α) (i j : Nat) (a d : α) (h : i ≠ j) :
    (l.set i a).getD j d = l.getD j d := by
  induction l generalizing i j with
  | nil => rfl
  | cons x xs ih =>
    cases i with
    | zero =>
      cases j with
      | zero => exact absurd rfl h
      | succ m => rfl
    | succ n =>
      cases j with
      | zero => rfl
      | succ m => exact ih n m fun hnm => h (by rw [hnm])

theorem getD_append_left {α} (l1 l2 : List α) (j : Nat) (d : α) (h : j < l1.length) :
    (l1 ++ l2).getD j d = l1.getD j d := by
  induction l1 generalizing j with
  | nil => cases h
  | cons x xs ih =>
    cases j with
    | zero => rfl
    | succ n => exact ih n (Nat.lt_of_succ_lt_succ h)

theorem getD_append_self {α} (l : List α) (v d : α) :
    (l ++ [v]).getD l.length d = v := by
  induction l with
  | nil => rfl
  | cons x xs ih => exact ih

theorem getD_map_lt {α β} (f : α → β) (l : List α) (j : Nat) (d : β) (d0 : α)
    (h : j < l.length) : (l.map f).getD j d = f (l.getD j d0) := by
  induction l generalizing j with
  | nil => cases h
  | cons x xs ih =>
    cases j with
    | zero => rfl
    | succ n => exact ih n (Nat.lt_of_succ_lt_succ h)

theorem colIdx_some (cols : List String) (c : String) :
    ∀ i, colIdx cols c = some i → i < cols.length ∧ cols.getD i "" = c := by
  induction cols with
  | nil => intro i h; cases h
  | cons c0 rest ih =>
    intro i h
    unfold colIdx at h
    by_cases hc : c0 = c
    · rw [if_pos hc] at h
      cases h
      exact ⟨Nat.succ_pos _, hc⟩
    · rw [if_neg hc] at h
      obtain ⟨i', hi', rfl⟩ := Option.map_eq_some'.mp h
      obtain ⟨hlt, hget⟩ := ih i' hi'
      exact ⟨Nat.succ_lt_succ hlt, hget⟩

theorem colIdx_none_iff (cols : List String) (c : String) :
    colIdx cols c = none ↔ c ∉ cols := by
  induction cols with
  | nil => simp [colIdx]
  | cons c0 rest ih =>
    unfold colIdx
    by_cases hc : c0 = c
    · simp [hc]
    · simp [hc, ih, Ne.symm hc]

theorem colIdx_mem (cols : List String) (c : String) (h : c ∈ cols) :
    ∃ i, colIdx cols c = some i := by
  cases hi : colIdx cols c with
  | none => exact absurd h ((colIdx_none_iff cols c).mp hi)
  | some i => exact ⟨i, rfl⟩

theorem colIdx_cons (x : String) (l : List String) (c : String) :
    colIdx (x :: l) c = if x = c then some 0 else (colIdx l c).map (· + 1) := rfl

theorem colIdx_append (l1 l2 : List String) (c : String) :
    colIdx (l1 ++ l2) c =
      match colIdx l1 c with
      | some i => some i
      | none => (colIdx l2 c).map (· + l1.length) := by
  induction l1 with
  | nil =>
    cases h : colIdx l2 c <;> simp [colIdx, h]
  | cons c0 rest ih =>
    rw [List.cons_append, colIdx_cons, colIdx_cons, ih]
    by_cases hc : c0 = c
    · simp [hc]
    · rw [if_neg hc, if_neg hc]
      cases h : colIdx rest c with
      | some i => simp
      | none =>
        cases h2 : colIdx l2 c with
        | none => simp
        | some j =>
          simp only [Option.map_none', Option.map_some', List.length_cons,
            Option.some.injEq]
          omega

/-! Row-length invariants of the parsing stage. -/

theorem parseRowCells_length (n : Nat) (l : String) (r : List Value)
    (h : parseRowCells n l = Except.ok r) : r.length = n := by
  unfold parseRowCells at h
  split at h
  · cases h
  · rename_i hnot
    cases h
    simp only [List.length_append, List.length_map, List.length_replicate]
    omega

theorem parseDataRows_length (n : Nat) :
    ∀ ls rs, parseDataRows n ls = Except.ok rs → ∀ r ∈ rs, r.length = n := by
  intro ls
  induction ls with
  | nil => intro rs h r hr; cases h; cases hr
  | cons l ls ih =>
    intro rs h r hr
    unfold parseDataRows at h
    cases h1 : parseRowCells n l with
    | error e =>
      cases h2 : parseDataRows n ls with
      | error e2 => rw [h1, h2] at h; cases h
      | ok rows => rw [h1, h2] at h; cases h
    | ok row =>
      cases h2 : parseDataRows n ls with
      | error e => rw [h1, h2] at h; cases h
      | ok rows =>
        rw [h1, h2] at h
        cases h
        cases hr with
        | head => exact parseRowCells_length n l r h1
        | tail _ hm => exact ih rows h2 r hm

theorem read_csv_rowLen (c : String) (df : DataFrame)
    (h : read_csv c = Except.ok df) : ∀ r ∈ df.rows, r.length = df.cols.length := by
  unfold read_csv at h
  cases hl : csvLines c with
  | nil => rw [hl] at h; cases h
  | cons hdr rest =>
    rw [hl] at h
    cases h2 : parseDataRows (pySplit ',' hdr).length rest with
    | error e => simp only [h2] at h; cases h
    | ok rows =>
      simp only [h2] at h
      cases h
      exact parseDataRows_length _ rest rows h2

theorem readNorm_rowLen (f : PyFile) (df : DataFrame)
    (h : readNorm f = Except.ok df) : ∀ r ∈ df.rows, r.length = df.cols.length := by
  unfold readNorm at h
  cases hc : f.content with
  | none => rw [hc] at h; cases h
  | some c =>
    rw [hc] at h
    dsimp only at h
    cases h2 : read_csv c with
    | error e => rw [h2] at h; cases h
    | ok df0 =>
      rw [h2] at h
      cases h
      intro r hr
      have := read_csv_rowLen c df0 h2 r hr
      simpa [normalizeCols] using this

/-! Lemmas about `setCol`. -/

theorem rowVal_setCol_self (df : DataFrame) (name : String) (v : Value)
    (hlen : ∀ r ∈ df.rows, r.length = df.cols.length) :
    ∀ r2 ∈ (setCol df name v).rows, rowVal (setCol df name v).cols r2 name = v := by
  intro r2 hr2
  unfold setCol at hr2 ⊢
  cases hci : colIdx df.cols name with
  | some i =>
    rw [hci] at hr2
    simp only at hr2
    obtain ⟨r, hr, rfl⟩ := List.mem_map.mp hr2
    simp only
    unfold rowVal
    rw [hci]
    exact getD_set_self r i v Value.vnan
      (by rw [hlen r hr]; exact (colIdx_some df.cols name i hci).1)
  | none =>
    rw [hci] at hr2
    simp only at hr2
    obtain ⟨r, hr, rfl⟩ := List.mem_map.mp hr2
    simp only
    unfold rowVal
    rw [colIdx_append, hci]
    have h1 : colIdx [name] name = some 0 := by rw [colIdx_cons, if_pos rfl]
    rw [h1]
    simp only [Option.map_some']
    have h0 : (0 : Nat) + df.cols.length = r.length := by rw [hlen r hr]; omega
    rw [h0]
    exact getD_append_self r v Value.vnan

theorem rowVal_setCol_other (df : DataFrame) (name : String) (v : Value) (c : String)
    (hne : c ≠ name) (hlen : ∀ r ∈ df.rows, r.length = df.cols.length) :
    List.Forall₂ (fun r r2 => rowVal (setCol df name v).cols r2 c = rowVal df.cols r c)
      df.rows (setCol df name v).rows := by
  unfold setCol
  cases hci : colIdx df.cols name with
  | some i =>
    simp only
    rw [List.forall₂_map_right_iff]
    rw [List.forall₂_same]
    intro r hr
    unfold rowVal
    cases hcc : colIdx df.cols c with
    | none => rfl
    | some j =>
      have hgi := (colIdx_some df.cols name i hci).2
      have hgj := (colIdx_some df.cols c j hcc).2
      have hij : i ≠ j := fun hij => hne (by rw [← hgj, ← hij, hgi])
      exact getD_set_ne r i j v Value.vnan hij
  | none =>
    simp only
    rw [List.forall₂_map_right_iff]
    rw [List.forall₂_same]
    intro r hr
    unfold rowVal
    rw [colIdx_append]
    cases hcc : colIdx df.cols c with
    | some j =>
      simp only
      have hj := (colIdx_some df.cols c j hcc).1
      exact getD_append_left r [v] j Value.vnan (by rw [hlen r hr]; exact hj)
    | none =>
      have hn : colIdx [name] c = none := by
        rw [colIdx_cons, if_neg (Ne.symm hne)]; rfl
      simp [hn]

/-- C5 (confirmed): column canonicalization is trim-then-lowercase, so any two
raw headers that agree after trimming and lowercasing receive the same
canonical key from the normalizer. -/
theorem c5_label_canonicalization (a b : String)
    (h : pyLower (pyStrip a) = pyLower (pyStrip b)) :
    (normalizeCols ⟨[a], []⟩).cols = (normalizeCols ⟨[b], []⟩).cols ∧
    canonLabel a = canonLabel b := by
  constructor
  · simp [normalizeCols, canonLabel, h]
  · exact h

/-- C5 witness: the canonical-key invariance applied to the spec's header pair
`" Timestamp "` and `"TIMESTAMP"`. -/
theorem c5_label_canonicalization_witness :
    (normalizeCols ⟨[" Timestamp "], []⟩).cols =
      (normalizeCols ⟨["TIMESTAMP"], []⟩).cols ∧
    canonLabel " Timestamp " = canonLabel "TIMESTAMP" :=
  c5_label_canonicalization " Timestamp " "TIMESTAMP" rfl

/-- C9 (confirmed): discovery is the deterministic order-preserving filter of
the directory listing, and the whole pipeline is a pure function of the
directory state, so two runs on an unchanged directory return the identical
dataset-or-error and the identical error log. -/
theorem c9_determinism (d1 d2 : List PyFile) (h : d1 = d2) :
    discover d1 = d1.filter (fun f => matchesGlob f.name) ∧
    discover d1 = discover d2 ∧
    load_and_combine_data d1 = load_and_combine_data d2 := by
  subst h
  exact ⟨rfl, rfl, rfl⟩

/-- C9 witness: the determinism theorem applied to a concrete directory. -/
theorem c9_determinism_witness :
    discover [⟨"usage_B_2024.csv", some "timestamp,kwh\n1/2/2024,5"⟩] =
      [⟨"usage_B_2024.csv", some "timestamp,kwh\n1/2/2024,5"⟩].filter
        (fun f => matchesGlob f.name) ∧
    discover [⟨"usage_B_2024.csv", some "timestamp,kwh\n1/2/2024,5"⟩] =
      discover [⟨"usage_B_2024.csv", some "timestamp,kwh\n1/2/2024,5"⟩] ∧
    load_and_combine_data [⟨"usage_B_2024.csv", some "timestamp,kwh\n1/2/2024,5"⟩] =
      load_and_combine_data [⟨"usage_B_2024.csv", some "timestamp,kwh\n1/2/2024,5"⟩] :=
  c9_determinism _ _ rfl

/-- C3 (confirmed): every row of a successfully processed file carries as its
`building` value the second underscore-delimited token (index 1) of the file's
stem; a base name with fewer than two tokens makes exactly that file fail with
the building-name error, and the loop still collects every other file's
outcome. -/
theorem c3_building_derivation :
    (∀ f b r, processFile f = Except.ok b → r ∈ b.rows →
      rowVal b.cols r "building" =
        Value.vstr ((pySplit '_' (stem f.name)).getD 1 "")) ∧
    (∀ f c df, f.content = some c → read_csv c = Except.ok df →
      (pySplit '_' (stem f.name)).length < 2 →
      processFile f = Except.error FileError.badBuildingName) ∧
    (∀ files, loopPhase files = (files.filterMap okPart, files.filterMap errPart)) := by
  refine ⟨?_, ?_, loopPhase_eq⟩
  · intro f b r hok hr
    unfold processFile at hok
    cases hn : readNorm f with
    | error e => rw [hn] at hok; cases hok
    | ok nb =>
      rw [hn] at hok
      dsimp only at hok
      cases hb : buildingOf f.name with
      | none => rw [hb] at hok; cases hok
      | some bid =>
        rw [hb] at hok
        cases hok
        have hlen := readNorm_rowLen f nb hn
        have hgd : (pySplit '_' (stem f.name)).getD 1 "" = bid := by
          unfold buildingOf at hb
          simp [List.getD, hb]
        rw [hgd]
        exact rowVal_setCol_self nb "building" (Value.vstr bid) hlen r hr
  · intro f c df hc hrd hlt
    have hb : buildingOf f.name = none := by
      unfold buildingOf
      exact List.getElem?_eq_none (by omega)
    unfold processFile readNorm
    rw [hc]
    dsimp only
    rw [hrd]
    dsimp only
    rw [hb]

/-- C3 witness: `usage_B_2024.csv` tags its row with building `B`, and
`readings.csv` (a single token) fails with the building-name error. -/
theorem c3_building_derivation_witness :
    rowVal ["timestamp", "kwh", "building"]
        [Value.vstr "1/2/2024", Value.vstr "5", Value.vstr "B"] "building" =
      Value.vstr ((pySplit '_' (stem "usage_B_2024.csv")).getD 1 "") ∧
    processFile ⟨"readings.csv", some "timestamp,kwh\n1/2/2024,5"⟩ =
      Except.error FileError.badBuildingName :=
  ⟨c3_building_derivation.1 ⟨"usage_B_2024.csv", some "Timestamp,kwh\n1/2/2024,5"⟩
      ⟨["timestamp", "kwh", "building"],
        [[Value.vstr "1/2/2024", Value.vstr "5", Value.vstr "B"]]⟩
      [Value.vstr "1/2/2024", Value.vstr "5", Value.vstr "B"] rfl (by simp),
   c3_building_derivation.2.1 ⟨"readings.csv", some "timestamp,kwh\n1/2/2024,5"⟩
      "timestamp,kwh\n1/2/2024,5"
      ⟨["timestamp", "kwh"], [[Value.vstr "1/2/2024", Value.vstr "5"]]⟩
      rfl rfl (by decide)⟩

/-- C8 (amended): a file containing only a header row parses to an empty frame
and the file is processed successfully, contributing zero rows and not
blocking other files — but silently: no `EmptyFile` advisory is recorded
anywhere (the loop's log only ever holds caught failures). -/
theorem c8_header_only (f : PyFile) (c hdr bid : String)
    (hc : f.content = some c) (hl : csvLines c = [hdr])
    (hb : buildingOf f.name = some bid) :
    ∃ b, processFile f = Except.ok b ∧ b.rows = [] := by
  have hread : read_csv c = Except.ok ⟨pySplit ',' hdr, []⟩ := by
    unfold read_csv
    rw [hl]
    rfl
  refine ⟨setCol (normalizeCols ⟨pySplit ',' hdr, []⟩) "building" (Value.vstr bid),
    ?_, ?_⟩
  · unfold processFile readNorm
    rw [hc]
    dsimp only
    rw [hread]
    dsimp only
    rw [hb]
  · unfold normalizeCols setCol
    dsimp only
    cases hci : colIdx ((pySplit ',' hdr).map canonLabel) "building" <;> simp [hci]

/-- C8 witness: the amended statement applied to a header-only file. -/
theorem c8_header_only_witness :
    ∃ b, processFile ⟨"h_A.csv", some "timestamp,kwh"⟩ = Except.ok b ∧
      b.rows = [] :=
  c8_header_only ⟨"h_A.csv", some "timestamp,kwh"⟩ "timestamp,kwh" "timestamp,kwh"
    "A" rfl rfl rfl

/-- C8 counterexample: a run over a header-only file plus a normal file ends
with an empty error log — no `EmptyFile` advisory is reported for the
header-only file, contrary to the claim. -/
theorem c8_counterexample :
    load_and_combine_data
        [⟨"h_A.csv", some "timestamp,kwh"⟩,
         ⟨"g_B.csv", some "timestamp,kwh\n1/2/2024,7"⟩] =
      (Except.ok ⟨["timestamp", "kwh", "building"],
        [[Value.vtime 20240102, Value.vstr "7", Value.vstr "B"]]⟩, []) := rfl

/-! Lemmas about the timestamp-coercion stage. -/

theorem coerceVal_error (v : Value) (e : RunError) (h : coerceVal v = Except.error e) :
    e = RunError.unparseableTimestamp := by
  cases v with
  | vnan => cases h
  | vtime t => cases h
  | vstr s =>
    unfold coerceVal at h
    dsimp only at h
    cases hp : parseTimestamp s with
    | some t => rw [hp] at h; cases h
    | none => rw [hp] at h; cases h; rfl

theorem coerceRows_error (i : Nat) :
    ∀ rs e, coerceRows i rs = Except.error e → e = RunError.unparseableTimestamp := by
  intro rs
  induction rs with
  | nil => intro e h; cases h
  | cons r0 rs ih =>
    intro e h
    unfold coerceRows at h
    cases h1 : coerceVal (r0.getD i Value.vnan) with
    | error e1 =>
      cases h2 : coerceRows i rs with
      | error e2 => rw [h1, h2] at h; cases h; exact coerceVal_error _ _ h1
      | ok rest => rw [h1, h2] at h; cases h; exact coerceVal_error _ _ h1
    | ok v =>
      cases h2 : coerceRows i rs with
      | error e2 => rw [h1, h2] at h; cases h; exact ih _ h2
      | ok rest => rw [h1, h2] at h; cases h

theorem coerceRows_ok_all (i : Nat) :
    ∀ rs rs2, coerceRows i rs = Except.ok rs2 →
      ∀ r ∈ rs, ∃ v, coerceVal (r.getD i Value.vnan) = Except.ok v := by
  intro rs
  induction rs with
  | nil => intro rs2 h r hr; cases hr
  | cons r0 rs ih =>
    intro rs2 h r hr
    unfold coerceRows at h
    cases h1 : coerceVal (r0.getD i Value.vnan) with
    | error e1 =>
      cases h2 : coerceRows i rs with
      | error e2 => rw [h1, h2] at h; cases h
      | ok rest => rw [h1, h2] at h; cases h
    | ok v =>
      cases h2 : coerceRows i rs with
      | error e2 => rw [h1, h2] at h; cases h
      | ok rest =>
        cases hr with
        | head => exact ⟨v, h1⟩
        | tail _ hm => exact ih rest h2 r hm

/-- C7 (amended): a row whose timestamp text cannot be parsed is fatal to the
whole run, not advisory: `pd.to_datetime` raises outside the per-file handler,
so the pipeline returns the unparseable-timestamp error and no
`UnifiedDataset`, and nothing about the row is recorded. -/
theorem c7_unparseable_timestamp_aborts (dir : List PyFile) (df : DataFrame) (i : Nat)
    (hconcat : pd_concat (loopPhase (discover dir)).1 = Except.ok df)
    (hidx : colIdx df.cols "timestamp" = some i)
    (r : List Value) (hr : r ∈ df.rows) (s : String)
    (hs : r.getD i Value.vnan = Value.vstr s) (hps : parseTimestamp s = none) :
    (load_and_combine_data dir).1 = Except.error RunError.unparseableTimestamp := by
  have hbad : coerceVal (r.getD i Value.vnan) =
      Except.error RunError.unparseableTimestamp := by
    rw [hs]
    simp [coerceVal, hps]
  cases hcr : coerceRows i df.rows with
  | ok rs2 =>
    obtain ⟨v, hv⟩ := coerceRows_ok_all i df.rows rs2 hcr r hr
    rw [hbad] at hv
    cases hv
  | error e =>
    have he := coerceRows_error i df.rows e hcr
    subst he
    unfold load_and_combine_data
    rw [hconcat]
    dsimp only
    unfold to_datetime
    rw [hidx]
    dsimp only
    rw [hcr]

/-- C7 witness: the amended statement applied to a file holding the
unparseable month-first timestamp `13/45/2024`. -/
theorem c7_unparseable_timestamp_aborts_witness :
    (load_and_combine_data [⟨"m_B.csv", some "timestamp,kwh\n13/45/2024,5"⟩]).1 =
      Except.error RunError.unparseableTimestamp :=
  c7_unparseable_timestamp_aborts [⟨"m_B.csv", some "timestamp,kwh\n13/45/2024,5"⟩]
    ⟨["timestamp", "kwh", "building"],
      [[Value.vstr "13/45/2024", Value.vstr "5", Value.vstr "B"]]⟩ 0
    rfl rfl [Value.vstr "13/45/2024", Value.vstr "5", Value.vstr "B"] (by simp)
    "13/45/2024" rfl rfl

/-- C7 counterexample: with one well-formed file containing one unparseable
timestamp, the pipeline aborts with an error and produces no dataset, and the
event is not recorded in the log — the claim said processing continues. -/
theorem c7_counterexample :
    load_and_combine_data [⟨"m_B.csv", some "timestamp,kwh\n13/45/2024,5"⟩] =
      (Except.error RunError.unparseableTimestamp, []) := rfl

/-- C6 (amended): a missing `timestamp` column is not per-file-fatal: the file
is processed successfully whenever reading and building-derivation succeed
(the timestamp column plays no role), nothing is recorded, and the rows are
merged; the run as a whole fails with the `KeyError` exactly when at least one
frame was collected but no collected frame contributes a `timestamp` column to
the column union. -/
theorem c6_missing_timestamp_not_per_file :
    (∀ f nb bid, readNorm f = Except.ok nb → buildingOf f.name = some bid →
      processFile f = Except.ok (setCol nb "building" (Value.vstr bid))) ∧
    (∀ dir, (load_and_combine_data dir).1 = Except.error RunError.missingTimestampKey ↔
      ((loopPhase (discover dir)).1 ≠ [] ∧
        colIdx (unionCols (loopPhase (discover dir)).1) "timestamp" = none)) := by
  constructor
  · intro f nb bid h1 h2
    unfold processFile
    rw [h1]
    dsimp only
    rw [h2]
  · intro dir
    unfold load_and_combine_data
    cases hbs : (loopPhase (discover dir)).1 with
    | nil => simp [pd_concat]
    | cons d ds =>
      have hcc : pd_concat (d :: ds) = Except.ok ⟨unionCols (d :: ds),
          ((d :: ds).map fun df =>
            df.rows.map (alignRow df.cols (unionCols (d :: ds)))).flatten⟩ := rfl
      rw [hcc]
      dsimp only
      unfold to_datetime
      cases hti : colIdx (unionCols (d :: ds)) "timestamp" with
      | none => simp
      | some i =>
        dsimp only
        cases hcr : coerceRows i
            ((d :: ds).map fun df =>
              df.rows.map (alignRow df.cols (unionCols (d :: ds)))).flatten with
        | error e =>
          have he := coerceRows_error i _ e hcr
          subst he
          simp
        | ok rows2 => simp

/-- C6 witness: a file with no `timestamp` column is still processed
successfully, and on the directory holding only that file the run-level
`KeyError` characterization holds. -/
theorem c6_missing_timestamp_not_per_file_witness :
    processFile ⟨"n_C.csv", some "ts,kwh\n1,2"⟩ =
      Except.ok (setCol ⟨["ts", "kwh"], [[Value.vstr "1", Value.vstr "2"]]⟩
        "building" (Value.vstr "C")) ∧
    ((load_and_combine_data [⟨"n_C.csv", some "ts,kwh\n1,2"⟩]).1 =
        Except.error RunError.missingTimestampKey ↔
      ((loopPhase (discover [⟨"n_C.csv", some "ts,kwh\n1,2"⟩])).1 ≠ [] ∧
        colIdx (unionCols (loopPhase (discover [⟨"n_C.csv", some "ts,kwh\n1,2"⟩])).1)
          "timestamp" = none)) :=
  ⟨c6_missing_timestamp_not_per_file.1 ⟨"n_C.csv", some "ts,kwh\n1,2"⟩
      ⟨["ts", "kwh"], [[Value.vstr "1", Value.vstr "2"]]⟩ "C" rfl rfl,
   c6_missing_timestamp_not_per_file.2 [⟨"n_C.csv", some "ts,kwh\n1,2"⟩]⟩

/-- C6 counterexample: a file lacking a `timestamp` column (`p_D.csv`) is not
skipped — its row appears in the output with a null timestamp and no failure
is recorded — contradicting the claim that such a file is recorded, skipped
and excluded. -/
theorem c6_counterexample :
    load_and_combine_data
        [⟨"p_D.csv", some "reading,kwh\n1/5/2024,9"⟩,
         ⟨"q_E.csv", some "timestamp,kwh\n2/6/2024,4"⟩] =
      (Except.ok ⟨["reading", "kwh", "building", "timestamp"],
        [[Value.vstr "1/5/2024", Value.vstr "9", Value.vstr "D", Value.vnan],
         [Value.vnan, Value.vstr "4", Value.vstr "E", Value.vtime 20240206]]⟩,
       []) := rfl

/-! Machinery on `List.Forall₂` for the merge-structure theorems. -/

theorem forall2_append_split {α β : Type} {R : α → β → Prop} :
    ∀ (l1 l2 : List α) (l : List β), List.Forall₂ R (l1 ++ l2) l →
      ∃ a b, l = a ++ b ∧ List.Forall₂ R l1 a ∧ List.Forall₂ R l2 b := by
  intro l1
  induction l1 with
  | nil => intro l2 l h; exact ⟨[], l, rfl, List.Forall₂.nil, h⟩
  | cons x xs ih =>
    intro l2 l h
    rw [List.cons_append] at h
    cases h with
    | cons hxy htail =>
      rename_i y l'
      obtain ⟨a, b, rfl, ha, hb⟩ := ih l2 l' htail
      exact ⟨y :: a, b, rfl, List.Forall₂.cons hxy ha, hb⟩

theorem forall2_flatten_split {α β : Type} {R : α → β → Prop} :
    ∀ (ls : List (List α)) (l : List β), List.Forall₂ R ls.flatten l →
      ∃ segs : List (List β), l = segs.flatten ∧
        List.Forall₂ (List.Forall₂ R) ls segs := by
  intro ls
  induction ls with
  | nil =>
    intro l h
    cases h
    exact ⟨[], rfl, List.Forall₂.nil⟩
  | cons h0 t ih =>
    intro l h
    rw [List.flatten_cons] at h
    obtain ⟨a, b, rfl, ha, hb⟩ := forall2_append_split h0 t.flatten l h
    obtain ⟨segs, rfl, hsegs⟩ := ih b hb
    exact ⟨a :: segs, by rw [List.flatten_cons], List.Forall₂.cons ha hsegs⟩

theorem coerceRows_forall2 (i : Nat) :
    ∀ rs rs2, coerceRows i rs = Except.ok rs2 →
      List.Forall₂ (fun r r2 => ∃ v, r2 = r.set i v) rs rs2 := by
  intro rs
  induction rs with
  | nil => intro rs2 h; cases h; exact List.Forall₂.nil
  | cons r0 rs ih =>
    intro rs2 h
    unfold coerceRows at h
    cases h1 : coerceVal (r0.getD i Value.vnan) with
    | error e1 =>
      cases h2 : coerceRows i rs with
      | error e2 => rw [h1, h2] at h; cases h
      | ok rest => rw [h1, h2] at h; cases h
    | ok v =>
      cases h2 : coerceRows i rs with
      | error e2 => rw [h1, h2] at h; cases h
      | ok rest =>
        rw [h1, h2] at h
        cases h
        exact List.Forall₂.cons ⟨v, rfl⟩ (ih rest h2)

theorem forall2_imp_mem {α β : Type} {S T : α → β → Prop} (big : List α) :
    ∀ {l1 : List α} {l2 : List β}, (∀ x ∈ l1, x ∈ big) → List.Forall₂ S l1 l2 →
      (∀ a b, a ∈ big → S a b → T a b) → List.Forall₂ T l1 l2 := by
  intro l1 l2 hsub h himp
  revert hsub
  induction h with
  | nil => intro _; exact List.Forall₂.nil
  | cons hab htail ih =>
    rename_i a b l1' l2'
    intro hsub
    exact List.Forall₂.cons (himp a b (hsub a (List.mem_cons_self a l1')) hab)
      (ih fun x hx => hsub x (List.mem_cons_of_mem _ hx))

theorem forall2_map_sum {α β : Type} {S : α → β → Prop} (f : α → Nat) (g : β → Nat)
    (hfg : ∀ a b, S a b → f a = g b) :
    ∀ {l1 : List α} {l2 : List β}, List.Forall₂ S l1 l2 →
      (l1.map f).sum = (l2.map g).sum := by
  intro l1 l2 h
  induction h with
  | nil => rfl
  | cons hab htail ih => simp [hfg _ _ hab, ih]

theorem flatten_length_sum {α : Type} :
    ∀ ls : List (List α), ls.flatten.length = (ls.map List.length).sum := by
  intro ls
  induction ls with
  | nil => rfl
  | cons h t ih => simp [List.flatten_cons, ih]

/-! Column-union membership. -/

theorem contains_true_iff (l : List String) (c : String) :
    l.contains c = true ↔ c ∈ l := by
  simp [List.contains, List.elem_iff]

theorem mem_addNewCols_left (acc cs : List String) (c : String) (h : c ∈ acc) :
    c ∈ addNewCols acc cs :=
  List.mem_append_left _ h

theorem mem_addNewCols_of_mem (acc cs : List String) (c : String) (h : c ∈ cs) :
    c ∈ addNewCols acc cs := by
  by_cases ha : c ∈ acc
  · exact List.mem_append_left _ ha
  · refine List.mem_append_right _ ?_
    rw [List.mem_filter]
    refine ⟨h, ?_⟩
    simpa [contains_true_iff] using ha

theorem mem_unionColsFrom_acc :
    ∀ (dfs : List DataFrame) (acc : List String) (c : String),
      c ∈ acc → c ∈ unionColsFrom acc dfs := by
  intro dfs
  induction dfs with
  | nil => intro acc c h; exact h
  | cons d ds ih => intro acc c h; exact ih _ c (mem_addNewCols_left _ _ _ h)

theorem mem_unionColsFrom :
    ∀ (dfs : List DataFrame) (acc : List String) (b : DataFrame),
      b ∈ dfs → ∀ c ∈ b.cols, c ∈ unionColsFrom acc dfs := by
  intro dfs
  induction dfs with
  | nil => intro acc b hb; cases hb
  | cons d ds ih =>
    intro acc b hb c hc
    cases hb with
    | head => exact mem_unionColsFrom_acc ds _ c (mem_addNewCols_of_mem acc d.cols c hc)
    | tail _ hm => exact ih _ b hm c hc

theorem mem_unionCols (dfs : List DataFrame) (b : DataFrame) (c : String)
    (hb : b ∈ dfs) (hc : c ∈ b.cols) : c ∈ unionCols dfs :=
  mem_unionColsFrom dfs [] b hb c hc

theorem alignRow_getD (cols u : List String) (r : List Value) (c : String) (j : Nat)
    (hj : colIdx u c = some j) :
    (alignRow cols u r).getD j Value.vnan = rowVal cols r c := by
  obtain ⟨hlt, hget⟩ := colIdx_some u c j hj
  unfold alignRow
  rw [getD_map_lt (rowVal cols r) u j Value.vnan "" hlt, hget]

/-- Structure of a successful run: the collected frames are nonempty, the
output columns are their ordered union, the timestamp column exists in it, and
the output rows are the per-frame aligned rows in frame order and row order,
with only the cell at the timestamp index rewritten. -/
theorem run_ok_structure (dir : List PyFile) (df : DataFrame)
    (rep : List (String × FileError))
    (h : load_and_combine_data dir = (Except.ok df, rep)) :
    ∃ i, (loopPhase (discover dir)).1 ≠ [] ∧
      df.cols = unionCols (loopPhase (discover dir)).1 ∧
      colIdx (unionCols (loopPhase (discover dir)).1) "timestamp" = some i ∧
      ∃ segs, df.rows = segs.flatten ∧
        List.Forall₂ (fun b seg =>
          List.Forall₂ (fun r r2 => ∃ v,
            r2 = (alignRow b.cols (unionCols (loopPhase (discover dir)).1) r).set i v)
            b.rows seg)
          (loopPhase (discover dir)).1 segs := by
  unfold load_and_combine_data at h
  cases hbs : (loopPhase (discover dir)).1 with
  | nil =>
    rw [hbs] at h
    simp [pd_concat] at h
  | cons d ds =>
    rw [hbs] at h
    have hcc : pd_concat (d :: ds) = Except.ok ⟨unionCols (d :: ds),
        ((d :: ds).map fun df0 =>
          df0.rows.map (alignRow df0.cols (unionCols (d :: ds)))).flatten⟩ := rfl
    rw [hcc] at h
    dsimp only at h
    unfold to_datetime at h
    cases hti : colIdx (unionCols (d :: ds)) "timestamp" with
    | none =>
      rw [hti] at h
      simp at h
    | some i =>
      rw [hti] at h
      dsimp only at h
      cases hcr : coerceRows i
          (((d :: ds).map fun df0 =>
            df0.rows.map (alignRow df0.cols (unionCols (d :: ds)))).flatten) with
      | error e =>
        rw [hcr] at h
        simp at h
      | ok rows2 =>
        rw [hcr] at h
        dsimp only at h
        have hdf : df = ⟨unionCols (d :: ds), rows2⟩ := by
          injection h with h1 h2
          exact (Except.ok.inj h1).symm
        subst hdf
        refine ⟨i, by simp, rfl, rfl, ?_⟩
        have hf2 := coerceRows_forall2 i _ rows2 hcr
        obtain ⟨segs, hsegs_eq, hsegs⟩ := forall2_flatten_split _ rows2 hf2
        refine ⟨segs, hsegs_eq, ?_⟩
        rw [List.forall₂_map_left_iff] at hsegs
        refine hsegs.imp ?_
        intro b seg hrel
        rw [List.forall₂_map_left_iff] at hrel
        exact hrel

/-- C4 (confirmed): a successful run's dataset is the order-preserving
concatenation of the collected frames — each frame contributes a contiguous
segment in discovery order, each segment pairs its rows one-to-one and in
order with the frame's rows (each output row being the aligned input row with
only the timestamp cell rewritten, never a reordering) — and its length is
the sum of the frames' row counts. -/
theorem c4_merge_preserves_order (dir : List PyFile) (df : DataFrame)
    (rep : List (String × FileError))
    (h : load_and_combine_data dir = (Except.ok df, rep)) :
    df.rows.length =
      (((loopPhase (discover dir)).1).map (fun b => b.rows.length)).sum ∧
    ∃ i segs, df.rows = segs.flatten ∧
      List.Forall₂ (fun b seg =>
        List.Forall₂ (fun r r2 => ∃ v,
          r2 = (alignRow b.cols (unionCols (loopPhase (discover dir)).1) r).set i v)
          b.rows seg)
        (loopPhase (discover dir)).1 segs := by
  obtain ⟨i, hne, hcols, hti, segs, hfe, hsegs⟩ := run_ok_structure dir df rep h
  refine ⟨?_, i, segs, hfe, hsegs⟩
  have hsum := forall2_map_sum (fun b : DataFrame => b.rows.length) List.length
    (fun b seg hS => hS.length_eq) hsegs
  rw [hfe, flatten_length_sum]
  exact hsum.symm

/-- C4 witness: the merge-structure theorem applied to a concrete two-file
run. -/
theorem c4_merge_preserves_order_witness :
    (DataFrame.rows ⟨["timestamp", "kwh", "building"],
        [[Value.vtime 20240102, Value.vstr "5", Value.vstr "A"],
         [Value.vtime 20240103, Value.vstr "6", Value.vstr "A"],
         [Value.vtime 20240204, Value.vstr "7", Value.vstr "B"]]⟩).length =
      (((loopPhase (discover
        [⟨"usage_A_jan.csv", some "timestamp,kwh\n1/2/2024,5\n1/3/2024,6"⟩,
         ⟨"usage_B_feb.csv", some "timestamp,kwh\n2/4/2024,7"⟩])).1).map
          (fun b => b.rows.length)).sum ∧
    ∃ i segs, (DataFrame.rows ⟨["timestamp", "kwh", "building"],
        [[Value.vtime 20240102, Value.vstr "5", Value.vstr "A"],
         [Value.vtime 20240103, Value.vstr "6", Value.vstr "A"],
         [Value.vtime 20240204, Value.vstr "7", Value.vstr "B"]]⟩) = segs.flatten ∧
      List.Forall₂ (fun b seg =>
        List.Forall₂ (fun r r2 => ∃ v,
          r2 = (alignRow b.cols (unionCols (loopPhase (discover
            [⟨"usage_A_jan.csv", some "timestamp,kwh\n1/2/2024,5\n1/3/2024,6"⟩,
             ⟨"usage_B_feb.csv", some "timestamp,kwh\n2/4/2024,7"⟩])).1) r).set i v)
          b.rows seg)
        (loopPhase (discover
          [⟨"usage_A_jan.csv", some "timestamp,kwh\n1/2/2024,5\n1/3/2024,6"⟩,
           ⟨"usage_B_feb.csv", some "timestamp,kwh\n2/4/2024,7"⟩])).1 segs :=
  c4_merge_preserves_order
    [⟨"usage_A_jan.csv", some "timestamp,kwh\n1/2/2024,5\n1/3/2024,6"⟩,
     ⟨"usage_B_feb.csv", some "timestamp,kwh\n2/4/2024,7"⟩]
    ⟨["timestamp", "kwh", "building"],
      [[Value.vtime 20240102, Value.vstr "5", Value.vstr "A"],
       [Value.vtime 20240103, Value.vstr "6", Value.vstr "A"],
       [Value.vtime 20240204, Value.vstr "7", Value.vstr "B"]]⟩
    [] rfl

/-- C10 (amended): passthrough is limited — a column other than `building`
keeps its per-row values through the building-tagging step, and a column other
than `timestamp` that a frame actually has keeps its per-row values from that
frame into the combined dataset; but a column canonicalizing to `building` is
overwritten by the derived identifier (see the counterexample), and the
`timestamp` column is rewritten by the conversion. -/
theorem c10_passthrough (c : String) :
    (∀ f nb bid, readNorm f = Except.ok nb → buildingOf f.name = some bid →
      c ≠ "building" →
      List.Forall₂ (fun r r2 =>
        rowVal (setCol nb "building" (Value.vstr bid)).cols r2 c = rowVal nb.cols r c)
        nb.rows (setCol nb "building" (Value.vstr bid)).rows) ∧
    (∀ dir df rep, load_and_combine_data dir = (Except.ok df, rep) →
      c ≠ "timestamp" →
      ∃ segs, df.rows = segs.flatten ∧
        List.Forall₂ (fun b seg => c ∈ b.cols →
          List.Forall₂ (fun r r2 => rowVal df.cols r2 c = rowVal b.cols r c)
            b.rows seg)
          (loopPhase (discover dir)).1 segs) := by
  constructor
  · intro f nb bid h1 h2 hc
    exact rowVal_setCol_other nb "building" (Value.vstr bid) c hc
      (readNorm_rowLen f nb h1)
  · intro dir df rep h hc
    obtain ⟨i, hne, hcols, hti, segs, hfe, hsegs⟩ := run_ok_structure dir df rep h
    refine ⟨segs, hfe, ?_⟩
    refine forall2_imp_mem (loopPhase (discover dir)).1 (fun x hx => hx) hsegs ?_
    intro b seg hb hS hcmem
    refine hS.imp ?_
    rintro r r2 ⟨v, rfl⟩
    have hcu : c ∈ unionCols (loopPhase (discover dir)).1 :=
      mem_unionCols _ b c hb hcmem
    obtain ⟨j, hj⟩ := colIdx_mem _ c hcu
    have hji : j ≠ i := by
      intro hji
      subst hji
      have hg1 := (colIdx_some _ c j hj).2
      have hg2 := (colIdx_some _ "timestamp" j hti).2
      exact hc (by rw [← hg1, hg2])
    have lhs_eq : rowVal df.cols
        ((alignRow b.cols (unionCols (loopPhase (discover dir)).1) r).set i v) c =
        (alignRow b.cols (unionCols (loopPhase (discover dir)).1) r).getD j
          Value.vnan := by
      rw [hcols]
      unfold rowVal
      rw [hj]
      exact getD_set_ne _ i j v Value.vnan fun hij => hji hij.symm
    rw [lhs_eq, alignRow_getD b.cols _ r c j hj]

/-- C10 witness: the amended passthrough statement applied to the `kwh` column
of a concrete file and run. -/
theorem c10_passthrough_witness :
    List.Forall₂ (fun r r2 =>
      rowVal (setCol (⟨["timestamp", "kwh", "building"],
          [[Value.vstr "1/2/2024", Value.vstr "5", Value.vstr "OLD"]]⟩ : DataFrame)
          "building" (Value.vstr "A")).cols r2 "kwh" =
        rowVal ["timestamp", "kwh", "building"] r "kwh")
      [[Value.vstr "1/2/2024", Value.vstr "5", Value.vstr "OLD"]]
      (setCol (⟨["timestamp", "kwh", "building"],
          [[Value.vstr "1/2/2024", Value.vstr "5", Value.vstr "OLD"]]⟩ : DataFrame)
        "building" (Value.vstr "A")).rows ∧
    ∃ segs, (DataFrame.rows ⟨["timestamp", "kwh", "building"],
        [[Value.vtime 20240102, Value.vstr "5", Value.vstr "A"]]⟩) = segs.flatten ∧
      List.Forall₂ (fun b seg => "kwh" ∈ b.cols →
        List.Forall₂ (fun r r2 =>
          rowVal (DataFrame.cols ⟨["timestamp", "kwh", "building"],
            [[Value.vtime 20240102, Value.vstr "5", Value.vstr "A"]]⟩) r2 "kwh" =
            rowVal b.cols r "kwh") b.rows seg)
        (loopPhase (discover
          [⟨"u_A_x.csv", some "Timestamp,kwh,Building\n1/2/2024,5,OLD"⟩])).1 segs :=
  ⟨(c10_passthrough "kwh").1
      ⟨"u_A_x.csv", some "Timestamp,kwh,Building\n1/2/2024,5,OLD"⟩
      ⟨["timestamp", "kwh", "building"],
        [[Value.vstr "1/2/2024", Value.vstr "5", Value.vstr "OLD"]]⟩
      "A" rfl rfl (by decide),
   (c10_passthrough "kwh").2
      [⟨"u_A_x.csv", some "Timestamp,kwh,Building\n1/2/2024,5,OLD"⟩]
      ⟨["timestamp", "kwh", "building"],
        [[Value.vtime 20240102, Value.vstr "5", Value.vstr "A"]]⟩
      [] rfl (by decide)⟩

/-- C10 counterexample: a passthrough column whose header canonicalizes to
`building` is not passed through unmodified — the normalized batch holds
`OLD` there, but the pipeline's own added building field overwrites it with
the derived `A`. -/
theorem c10_counterexample :
    load_and_combine_data
        [⟨"u_A_x.csv", some "Timestamp,kwh,Building\n1/2/2024,5,OLD"⟩] =
      (Except.ok ⟨["timestamp", "kwh", "building"],
        [[Value.vtime 20240102, Value.vstr "5", Value.vstr "A"]]⟩, []) ∧
    readNorm ⟨"u_A_x.csv", some "Timestamp,kwh,Building\n1/2/2024,5,OLD"⟩ =
      Except.ok ⟨["timestamp", "kwh", "building"],
        [[Value.vstr "1/2/2024", Value.vstr "5", Value.vstr "OLD"]]⟩ ∧
    Value.vstr "A" ≠ Value.vstr "OLD" :=
  ⟨rfl, rfl, by decide⟩

end Campus
